import Mathlib

/-!
Shallow embedding of the SID symbolic-reasoning core of this repository
(expression parser, AST→diagram compiler, conflict-resolution framework,
rewrite engine, stability checker), together with theorems settling the
frozen claims about it.

Conventions of the embedding:
* Python dicts that serve as records become Lean structures whose fields
  default to the value `dict.get` would return for a missing key.
* Python exceptions become `Except` error values; the error constructors
  record the data that the source interpolates into its message strings.
* Python floats only ever appear here in ratio computations; they are
  modelled as `Rat`.
* Loops whose bound is not structural carry an explicit fuel argument that
  provably dominates the number of iterations the source can perform; the
  fuel-exhausted branch is unreachable on the inputs the source can reach.
-/

/-- Expression AST of sid_ast.py: `Atom(name)` and `OpExpr(op, args)`. -/
inductive Expr where
  | atom (name : String)
  | opExpr (op : String) (args : List Expr)

/-- Token record of sid_parser.py (dataclass `Token`). -/
structure Token where
  kind : String
  value : String
  pos : Nat
  line : Nat := 1
  column : Nat := 1
deriving DecidableEq, Repr

/-- Structured form of the `ParseError` exceptions raised by sid_parser.py.
Each constructor records exactly the data the source interpolates into the
corresponding message string, so "citing the specific bound violated"
is captured by which constructor (and which numbers) appear. -/
inductive ParseErr where
  | unexpectedChar (line column : Nat) (c : Char)
  | unexpectedEndOfInput
  | expectedKind (expected : String) (pos : Nat) (got : String)
  | emptyExpression
  | unknownOperator (value : String) (line column : Nat)
  | arityMin (op : String) (minArgs gotArgs pos : Nat)
  | arityMax (op : String) (maxArgs gotArgs pos : Nat)
  | unexpectedToken (kind : String) (pos : Nat)
  | trailingToken (value : String) (pos : Nat)
  | outOfFuel
deriving DecidableEq, Repr

/-- Python `\s` on the ASCII inputs the tokenizer handles. -/
def isPySpace (c : Char) : Bool :=
  c == ' ' || c == '\t' || c == '\n' || c == '\x0d' || c == '\x0b' || c == '\x0c'

/-- Start character of the `ident` alternative `[$]?[A-Za-z_][A-Za-z0-9_]*`. -/
def isIdentStart (c : Char) : Bool :=
  c.isAlpha || c == '_'

/-- Continuation character of the `ident` alternative. -/
def isIdentCont (c : Char) : Bool :=
  c.isAlphanum || c == '_'

/-- The `op` alternative of TOKEN_RE, tried in the regex order
`S\+|S-|P|O|C|T`; returns the greedily matched lexeme. -/
def opLexeme : List Char → Option (List Char)
  | 'S' :: '+' :: _ => some ['S', '+']
  | 'S' :: '-' :: _ => some ['S', '-']
  | c :: _ =>
    if c == 'P' || c == 'O' || c == 'C' || c == 'T' then some [c] else none
  | [] => none

/-- The `ident` alternative of TOKEN_RE: optional `$`, then a letter or
underscore, then a greedy run of word characters. -/
def identLexeme : List Char → Option (List Char)
  | '$' :: c :: rest =>
    if isIdentStart c then some ('$' :: c :: rest.takeWhile isIdentCont) else none
  | c :: rest =>
    if isIdentStart c then some (c :: rest.takeWhile isIdentCont) else none
  | [] => none

/-- Line/column bookkeeping of `tokenize`: advance over the characters of a
matched lexeme, resetting the column after a newline. -/
def advanceLC : Nat → Nat → List Char → Nat × Nat
  | line, col, [] => (line, col)
  | line, col, c :: cs =>
    if c == '\n' then advanceLC (line + 1) 1 cs else advanceLC line (col + 1) cs

/-- Worker of `tokenize`. The regex alternation is tried in source order:
whitespace, operator, identifier, parens, comma; anything else raises.
Every step consumes at least one character, so fuel `text.length + 1`
never runs out. -/
def tokenizeAux : Nat → List Char → Nat → Nat → Nat → Except ParseErr (List Token)
  | 0, _, _, _, _ => .error .outOfFuel
  | _, [], _, _, _ => .ok []
  | fuel + 1, c :: rest, pos, line, col =>
    if isPySpace c then
      let run := List.takeWhile isPySpace (c :: rest)
      let rest2 := List.dropWhile isPySpace (c :: rest)
      let lc := advanceLC line col run
      tokenizeAux fuel rest2 (pos + run.length) lc.1 lc.2
    else
      match opLexeme (c :: rest) with
      | some lex => do
        let toks ← tokenizeAux fuel (List.drop lex.length (c :: rest))
          (pos + lex.length) line (col + lex.length)
        pure (Token.mk "op" (String.mk lex) pos line col :: toks)
      | none =>
        match identLexeme (c :: rest) with
        | some lex => do
          let toks ← tokenizeAux fuel (List.drop lex.length (c :: rest))
            (pos + lex.length) line (col + lex.length)
          pure (Token.mk "ident" (String.mk lex) pos line col :: toks)
        | none =>
          if c == '(' then do
            let toks ← tokenizeAux fuel rest (pos + 1) line (col + 1)
            pure (Token.mk "lparen" "(" pos line col :: toks)
          else if c == ')' then do
            let toks ← tokenizeAux fuel rest (pos + 1) line (col + 1)
            pure (Token.mk "rparen" ")" pos line col :: toks)
          else if c == ',' then do
            let toks ← tokenizeAux fuel rest (pos + 1) line (col + 1)
            pure (Token.mk "comma" "," pos line col :: toks)
          else
            .error (.unexpectedChar line col c)

/-- Embedding of `tokenize` from sid_parser.py. -/
def tokenize (text : String) : Except ParseErr (List Token) :=
  tokenizeAux (text.length + 1) text.data 0 1 1

/-- The closed operator set OPERATORS of sid_parser.py. -/
def OPERATORS : List String := ["P", "S+", "S-", "O", "C", "T"]

/-- The per-operator arity table OPERATOR_ARITY of sid_parser.py:
`(min_args, max_args)`, `none` in the second component for "no upper
bound"; `none` overall for an operator with no declared constraint. -/
def OPERATOR_ARITY (op : String) : Option (Nat × Option Nat) :=
  if op = "P" then some (1, some 1)
  else if op = "S+" then some (1, none)
  else if op = "S-" then some (1, none)
  else if op = "O" then some (1, some 1)
  else if op = "C" then some (2, some 2)
  else if op = "T" then some (1, some 1)
  else none

/-- Embedding of `Parser._validate_arity`. -/
def validate_arity (op : String) (args : List Expr) (pos : Nat) :
    Except ParseErr Unit :=
  match OPERATOR_ARITY op with
  | none => .ok ()
  | some (minArgs, maxArgs) =>
    let numArgs := args.length
    if numArgs < minArgs then
      .error (.arityMin op minArgs numArgs pos)
    else
      match maxArgs with
      | some m =>
        if numArgs > m then .error (.arityMax op m numArgs pos) else .ok ()
      | none => .ok ()

mutual

/-- Embedding of `Parser.parse_expr`; the token cursor becomes explicit
list passing. Fuel dominates the recursion depth. -/
def parseExpr : Nat → List Token → Except ParseErr (Expr × List Token)
  | 0, _ => .error .outOfFuel
  | fuel + 1, ts =>
    match ts with
    | [] => .error .emptyExpression
    | t :: rest =>
      if t.kind = "op" then
        if OPERATORS.contains t.value then
          match rest with
          | t2 :: rest2 =>
            if t2.kind = "lparen" then do
              let er ← parseExprList fuel rest2
              match er.2 with
              | t3 :: rest4 =>
                if t3.kind = "rparen" then do
                  validate_arity t.value er.1 t.pos
                  pure (Expr.opExpr t.value er.1, rest4)
                else .error (.expectedKind "rparen" t3.pos t3.kind)
              | [] => .error .unexpectedEndOfInput
            else do
              validate_arity t.value [] t.pos
              pure (Expr.opExpr t.value [], rest)
          | [] => do
            validate_arity t.value [] t.pos
            pure (Expr.opExpr t.value [], [])
        else .error (.unknownOperator t.value t.line t.column)
      else if t.kind = "ident" then
        .ok (Expr.atom t.value, rest)
      else .error (.unexpectedToken t.kind t.pos)

/-- Embedding of `Parser.parse_expr_list`: first expression, then the
comma-separated continuation loop. -/
def parseExprList : Nat → List Token → Except ParseErr (List Expr × List Token)
  | 0, _ => .error .outOfFuel
  | fuel + 1, ts => do
    let er ← parseExpr fuel ts
    parseExprMore fuel [er.1] er.2

/-- The `while current is comma` loop of `parse_expr_list`. -/
def parseExprMore : Nat → List Expr → List Token → Except ParseErr (List Expr × List Token)
  | 0, _, _ => .error .outOfFuel
  | fuel + 1, acc, ts =>
    match ts with
    | t :: rest =>
      if t.kind = "comma" then do
        let er ← parseExpr fuel rest
        parseExprMore fuel (acc ++ [er.1]) er.2
      else .ok (acc, ts)
    | [] => .ok (acc, ts)

end

/-- Embedding of `parse_expression`: tokenize, parse one expression, and
reject trailing tokens. -/
def parse_expression (text : String) : Except ParseErr Expr := do
  let tokens ← tokenize text
  let er ← parseExpr (2 * tokens.length + 2) tokens
  match er.2 with
  | [] => pure er.1
  | t :: _ => .error (.trailingToken t.value t.pos)

/-- Node record of the diagram data model. Fields default to the value
`node.get(key, default)` yields for a missing key; the nested `meta` dict
is flattened into the three meta fields the core reads. -/
structure Node where
  id : String := ""
  op : String := ""
  dof_refs : List String := []
  inputs : List String := []
  irreversible : Bool := false
  meta_atom_args : List String := []
  meta_atom_only : Bool := false
  meta_target_compartment : Option String := none
deriving DecidableEq, Repr

/-- Edge record of the diagram data model; `from`/`to` become
`fromId`/`toId` because `from` is reserved in Lean. -/
structure Edge where
  id : String := ""
  fromId : String := ""
  toId : String := ""
  label : String := ""
deriving DecidableEq, Repr

/-- Diagram record: id, nodes, edges, optional compartment reference. -/
structure Diagram where
  id : String := ""
  nodes : List Node := []
  edges : List Edge := []
  compartment_id : Option String := none
deriving DecidableEq, Repr

/-- Python truthiness of an optional string: `None` and `""` are falsy. -/
def strTruthy : Option String → Bool
  | none => false
  | some s => s ≠ ""

/-- Mutable build state of sid_ast_to_diagram.py (`DiagramBuild`). -/
structure DiagramBuild where
  nodes : List Node
  edges : List Edge
  counter : Nat := 0

/-- Embedding of `DiagramBuild.next_id`. -/
def DiagramBuild.nextId (b : DiagramBuild) (pre : String) : String × DiagramBuild :=
  (pre ++ toString (b.counter + 1), { b with counter := b.counter + 1 })

/-- Structured form of the `ValueError`s raised by
`_validate_diagram_structure`. -/
inductive DiagErr where
  | badEdgeFrom (edgeId fromId : String)
  | badEdgeTo (edgeId toId : String)
  | badInput (nodeId inputId : String)
deriving DecidableEq, Repr

mutual

/-- Embedding of the inner `build_expr` of `expr_to_diagram`: returns the
produced node id (none for a bare atom) plus the atom names handed up to
the parent, threading the build state. -/
def buildExprD : Expr → DiagramBuild → (Option String × List String) × DiagramBuild
  | .atom name, b => ((none, [name]), b)
  | .opExpr op args, b =>
    let r := buildArgsD args b
    let atomArgs := r.1.1
    let inputIds := r.1.2
    let b := r.2
    let ib := b.nextId "n"
    let nodeId := ib.1
    let b := ib.2
    let node : Node :=
      if op = "P" ∧ atomArgs.length = 1 ∧ inputIds = [] then
        { id := nodeId, op := op, inputs := inputIds, dof_refs := atomArgs }
      else if (op = "S+" ∨ op = "S-") ∧ atomArgs ≠ [] ∧ inputIds = [] then
        { id := nodeId, op := op, inputs := inputIds, dof_refs := atomArgs }
      else if atomArgs ≠ [] then
        { id := nodeId, op := op, inputs := inputIds, meta_atom_args := atomArgs }
      else
        { id := nodeId, op := op, inputs := inputIds }
    let b := { b with nodes := b.nodes ++ [node] }
    let b := inputIds.foldl (fun b inputId =>
      let eb := DiagramBuild.nextId b "e"
      { eb.2 with edges := eb.2.edges ++
          [{ id := eb.1, fromId := inputId, toId := nodeId, label := "arg" }] }) b
    ((some nodeId, []), b)

/-- The argument loop of `build_expr`: children are compiled left to
right, their atom names concatenated and their node ids collected in
order (a child id is kept only when truthy, as in the source). -/
def buildArgsD : List Expr → DiagramBuild → (List String × List String) × DiagramBuild
  | [], b => (([], []), b)
  | a :: rest, b =>
    let r := buildExprD a b
    let rr := buildArgsD rest r.2
    let childIds :=
      match r.1.1 with
      | some i => if i = "" then [] else [i]
      | none => []
    ((r.1.2 ++ rr.1.1, childIds ++ rr.1.2), rr.2)

end

/-- Edge pass of `_validate_diagram_structure`: per edge, `from` is
checked before `to`; the first dangling endpoint raises. -/
def checkEdgesResolve (nodeIds : List String) : List Edge → Except DiagErr Unit
  | [] => .ok ()
  | e :: rest =>
    if nodeIds.contains e.fromId = false then .error (.badEdgeFrom e.id e.fromId)
    else if nodeIds.contains e.toId = false then .error (.badEdgeTo e.id e.toId)
    else checkEdgesResolve nodeIds rest

/-- Input pass of `_validate_diagram_structure`: the first dangling node
input raises. -/
def checkInputsResolve (nodeIds : List String) : List Node → Except DiagErr Unit
  | [] => .ok ()
  | n :: rest =>
    match n.inputs.find? (fun i => nodeIds.contains i = false) with
    | some i => .error (.badInput n.id i)
    | none => checkInputsResolve nodeIds rest

/-- Embedding of `_validate_diagram_structure`. -/
def validate_diagram_structure (d : Diagram) : Except DiagErr Unit := do
  let nodeIds := d.nodes.filterMap (fun n => if n.id = "" then none else some n.id)
  checkEdgesResolve nodeIds d.edges
  checkInputsResolve nodeIds d.nodes

/-- Embedding of `expr_to_diagram` from sid_ast_to_diagram.py, including
the bare-atom special case and the final structural-integrity pass. -/
def expr_to_diagram (expr : Expr) (diagram_id : String := "d_expr")
    (compartment_id : Option String := none) : Except DiagErr Diagram := do
  let r := buildExprD expr { nodes := [], edges := [] }
  let b : DiagramBuild :=
    match r.1.1, r.1.2 with
    | none, a :: _ =>
      let ib := DiagramBuild.nextId r.2 "n"
      { ib.2 with nodes := ib.2.nodes ++
          [{ id := ib.1, op := "P", dof_refs := [a], meta_atom_only := true }] }
    | _, _ => r.2
  let diagram : Diagram :=
    { id := diagram_id, nodes := b.nodes, edges := b.edges,
      compartment_id := if strTruthy compartment_id then compartment_id else none }
  validate_diagram_structure diagram
  pure diagram

/-- CSI record: id, allowed DOFs, allowed ordered DOF pairs (each pair a
list, as in the JSON documents). -/
structure CSI where
  id : String := ""
  allowed_dofs : List String := []
  allowed_pairs : List (List String) := []
deriving DecidableEq, Repr

/-- One loop-history snapshot of a state (`loop_history` entries carry an
`inu_labels` map read with `get(.., {})`). -/
structure Snapshot where
  inu_labels : List (String × String) := []
deriving DecidableEq, Repr

/-- State record. The label map is `none` when the `inu_labels` key is
absent. `other` stands for every further key of the Python state dict;
the embedded core never reads or writes it, mirroring that the source
only ever assigns the `inu_labels` key of a caller state. -/
structure SidState where
  id : String := ""
  diagram_id : String := ""
  csi_id : String := ""
  inu_labels : Option (List (String × String)) := none
  loop_history : List Snapshot := []
  other : List (String × String) := []
deriving DecidableEq, Repr

/-- Constraint record; `ctype` embeds the `type` key (`none` when the key
is absent), `predicate` the predicate name. -/
structure Constraint where
  id : String := ""
  ctype : Option String := none
  predicate : Option String := none
deriving DecidableEq, Repr

/-- Rewrite-rule record with both pattern forms and the preconditions. -/
structure RewriteRule where
  id : String := ""
  pattern : Option String := none
  replacement : Option String := none
  pattern_expr : Option String := none
  replacement_expr : Option String := none
  preconditions : List String := []
deriving DecidableEq, Repr

/-- Lookup in a label map (`dict.get(key)`); keys are unique in every map
the source builds, so first match is the dict lookup. -/
def dictGet (m : List (String × String)) (k : String) : Option String :=
  (m.find? (fun p => p.1 == k)).map (fun p => p.2)

/-- Python dict comprehension `{x.id: x for x in l if x.id}`: lookup is
last-wins over entries with a truthy id. -/
def pyDictLast {α : Type} (key : α → String) (l : List α) (k : String) : Option α :=
  l.foldl (fun acc x => if key x == k && key x != "" then some x else acc) none

/-- Key sequence of that comprehension: first-occurrence order of truthy
ids. -/
def dedupFirst (l : List String) : List String :=
  go l []
where
  go : List String → List String → List String
    | [], _ => []
    | x :: rest, seen =>
      if seen.contains x then go rest seen else x :: go rest (x :: seen)

/-- Adjacency lookup `edges_by_from.get(node_id, [])` of the DFS cycle
checks (both sid_crf.no_cycles and sid_rewrite._has_cycle build it the
same way). -/
def edgesByFrom (d : Diagram) (nid : String) : List String :=
  (d.edges.filter (fun e => e.fromId == nid)).map (fun e => e.toId)

mutual

/-- DFS step of the cycle checks: mark the node visited, push it on the
recursion stack, scan its neighbors. Returns (cycle-found, visited).
The shared mutable recursion stack of the source is recovered because a
returning call leaves the stack exactly as it found it. Fuel dominates
the total number of DFS steps; the 0 branch is unreachable. -/
def dfsCycle (adj : String → List String) :
    Nat → String → List String → List String → Bool × List String
  | 0, _, visited, _ => (true, visited)
  | fuel + 1, nodeId, visited, recStack =>
    dfsNeighbors adj fuel (adj nodeId) (visited ++ [nodeId]) (recStack ++ [nodeId])

/-- Neighbor loop of the DFS: recurse into unvisited neighbors, report a
cycle on a recursion-stack hit, otherwise continue. -/
def dfsNeighbors (adj : String → List String) :
    Nat → List String → List String → List String → Bool × List String
  | _, [], visited, _ => (false, visited)
  | 0, _ :: _, visited, _ => (true, visited)
  | fuel + 1, nb :: rest, visited, recStack =>
    if visited.contains nb then
      if recStack.contains nb then (true, visited)
      else dfsNeighbors adj fuel rest visited recStack
    else
      let r := dfsCycle adj fuel nb visited recStack
      if r.1 then (true, r.2) else dfsNeighbors adj fuel rest r.2 recStack

end

/-- Top loop of the cycle checks: scan the node ids in first-occurrence
order, starting a DFS at each unvisited one; reports the first start node
whose DFS found a cycle. -/
def cycleTop (adj : String → List String) (fuel : Nat) :
    List String → List String → Option String
  | [], _ => none
  | nid :: rest, visited =>
    if visited.contains nid then cycleTop adj fuel rest visited
    else
      let r := dfsCycle adj fuel nid visited []
      if r.1 then some nid else cycleTop adj fuel rest r.2

/-- Node-id key sequence of `{n.get("id"): n for n in nodes if n.get("id")}`. -/
def diagramNodeIds (d : Diagram) : List String :=
  dedupFirst (d.nodes.filterMap (fun n => if n.id = "" then none else some n.id))

/-- Fuel that dominates every DFS step count of the cycle checks: at most
`nodes + edges` distinct ids are ever visited and each visited id scans
its out-edges once. -/
def cycleFuel (d : Diagram) : Nat :=
  2 * d.nodes.length + 3 * d.edges.length + 2

/-- Embedding of the `no_cross_csi_interaction` predicate of sid_crf.py. -/
def no_cross_csi_interaction (_state : SidState) (diagram : Diagram) (csi : CSI) :
    Bool × String :=
  let allowedPairs := csi.allowed_pairs.filterMap (fun l =>
    match l with
    | [a, b] => some (a, b)
    | _ => none)
  if allowedPairs.isEmpty then
    (true, "No allowed_pairs defined; skipping pair check")
  else
    let violation := diagram.edges.findSome? (fun e =>
      match pyDictLast Node.id diagram.nodes e.fromId,
            pyDictLast Node.id diagram.nodes e.toId with
      | some fn, some tn =>
        fn.dof_refs.findSome? (fun fd =>
          tn.dof_refs.findSome? (fun td =>
            if allowedPairs.contains (fd, td) then none else some (e.id, fd, td)))
      | _, _ => none)
    match violation with
    | some v =>
      (false, "Edge " ++ v.1 ++ " violates CSI pair (" ++ v.2.1 ++ ", " ++ v.2.2 ++ ")")
    | none => (true, "All edges within CSI pairs")

/-- Embedding of the `collapse_irreversible` predicate of sid_crf.py. -/
def collapse_irreversible (_state : SidState) (diagram : Diagram) (_csi : CSI) :
    Bool × String :=
  match diagram.nodes.findSome? (fun n =>
      if n.op == "O" && !n.irreversible then some n.id else none) with
  | some nid => (false, "Collapse node " ++ nid ++ " must be marked irreversible")
  | none => (true, "All collapse nodes properly marked")

/-- Embedding of the `no_cycles` predicate of sid_crf.py. -/
def no_cycles (_state : SidState) (diagram : Diagram) (_csi : CSI) : Bool × String :=
  match cycleTop (edgesByFrom diagram) (cycleFuel diagram) (diagramNodeIds diagram) [] with
  | some nid => (false, "Cycle detected involving node " ++ nid)
  | none => (true, "No cycles detected")

/-- Embedding of the `valid_compartment_transitions` predicate of
sid_crf.py. -/
def valid_compartment_transitions (_state : SidState) (diagram : Diagram) (_csi : CSI) :
    Bool × String :=
  match diagram.nodes.findSome? (fun n =>
      if n.op == "T" && !(strTruthy n.meta_target_compartment) then some n.id else none) with
  | some nid => (false, "Transport node " ++ nid ++ " missing target_compartment in meta")
  | none => (true, "All transport nodes valid")

/-- The decorator-populated predicate registry PREDICATES of sid_crf.py,
as an explicit name table. -/
def PREDICATES (name : String) :
    Option (SidState → Diagram → CSI → Bool × String) :=
  if name = "no_cross_csi_interaction" then some no_cross_csi_interaction
  else if name = "collapse_irreversible" then some collapse_irreversible
  else if name = "no_cycles" then some no_cycles
  else if name = "valid_compartment_transitions" then some valid_compartment_transitions
  else none

/-- Embedding of `evaluate_constraints`: accumulate hard failures as
errors and soft failures plus unknown predicates as warnings; constraints
without a truthy predicate name are skipped. -/
def evaluate_constraints (constraints : List Constraint) (state : SidState)
    (diagram : Diagram) (csi : CSI) : List String × List String :=
  go constraints [] []
where
  go : List Constraint → List String → List String → List String × List String
    | [], errors, warnings => (errors, warnings)
    | c :: rest, errors, warnings =>
      if strTruthy c.predicate = false then go rest errors warnings
      else
        match PREDICATES (c.predicate.getD "") with
        | none => go rest errors
            (warnings ++ ["Unknown predicate " ++ c.predicate.getD ""])
        | some p =>
          let r := p state diagram csi
          if r.1 then go rest errors warnings
          else
            let msg := c.id ++ " failed: " ++ r.2
            if c.ctype.getD "hard" = "hard" then go rest (errors ++ [msg]) warnings
            else go rest errors (warnings ++ [msg])

/-- Label-everything loop that `assign_inu_labels` repeats in each of its
branches: every truthy node id, then every truthy edge id, mapped to the
branch value. -/
def labelAllElements (d : Diagram) (v : String) : List (String × String) :=
  d.nodes.filterMap (fun n => if n.id = "" then none else some (n.id, v)) ++
  d.edges.filterMap (fun e => if e.id = "" then none else some (e.id, v))

/-- Phase 1 of `assign_inu_labels`: evaluate the constraints globally in
order, breaking at the first failing hard constraint, accumulating the
soft-failure flag. Returns (global_hard_fail, global_soft_fail). -/
def phase1Global (state : SidState) (diagram : Diagram) (csi : CSI) :
    List Constraint → Bool → Bool × Bool
  | [], softFail => (false, softFail)
  | c :: rest, softFail =>
    if strTruthy c.predicate = false then phase1Global state diagram csi rest softFail
    else
      match PREDICATES (c.predicate.getD "") with
      | none => phase1Global state diagram csi rest softFail
      | some p =>
        if (p state diagram csi).1 then phase1Global state diagram csi rest softFail
        else if c.ctype = some "hard" then (true, softFail)
        else phase1Global state diagram csi rest true

/-- Embedding of `assign_inu_labels` from sid_crf.py: with no constraints
everything is I; otherwise one global evaluation pass labels everything N
after a hard failure, else U after a soft failure, else I. -/
def assign_inu_labels (diagram : Diagram) (constraints : List Constraint)
    (state : SidState) (csi : CSI) : List (String × String) :=
  if constraints.isEmpty then labelAllElements diagram "I"
  else
    let r := phase1Global state diagram csi constraints false
    if r.1 then labelAllElements diagram "N"
    else if r.2 then labelAllElements diagram "U"
    else labelAllElements diagram "I"

/-- Embedding of `check_admissible` from sid_crf.py. -/
def check_admissible (state : SidState) : Bool × String :=
  let labels := state.inu_labels.getD []
  match labels.find? (fun p => p.2 == "N") with
  | some p => (false, "Element " ++ p.1 ++ " is N (forbidden)")
  | none =>
    let unresolved := (labels.filter (fun p => p.2 == "U")).length
    if unresolved > 0 then
      (true, "Admissible with " ++ toString unresolved ++ " unresolved (U) elements")
    else (true, "All elements admissible (I)")

/-- Precondition loop of `authorize_rewrite`. -/
def authorizePreconditions (state : SidState) (rewrite_rule : RewriteRule) :
    List String → List String → Bool × List String × List String
  | [], warnings => (true, [], warnings)
  | pre :: rest, warnings =>
    if pre = "admissible" then
      let r := check_admissible state
      if r.1 then authorizePreconditions state rewrite_rule rest warnings
      else (false, [rewrite_rule.id ++ " precondition failed: " ++ r.2], warnings)
    else if pre = "no_hard_conflict" then
      authorizePreconditions state rewrite_rule rest warnings
    else
      authorizePreconditions state rewrite_rule rest
        (warnings ++ ["Rewrite " ++ rewrite_rule.id ++ " has unknown precondition " ++ pre])

/-- Embedding of `authorize_rewrite` from sid_crf.py. The in-place
insertion of the computed label map into the caller state becomes an
explicitly returned updated state. -/
def authorize_rewrite (constraints : List Constraint) (state : SidState)
    (diagram : Diagram) (csi : CSI) (rewrite_rule : RewriteRule) :
    (Bool × List String × List String) × SidState :=
  let state :=
    if state.inu_labels.isNone then
      { state with inu_labels := some (assign_inu_labels diagram constraints state csi) }
    else state
  let ew := evaluate_constraints constraints state diagram csi
  let result :=
    if ew.1 ≠ [] then (false, ew.1, ew.2)
    else authorizePreconditions state rewrite_rule rewrite_rule.preconditions ew.2
  (result, state)

/-- Python `str.strip()` on the ASCII pattern texts. -/
def stripChars (cs : List Char) : List Char :=
  ((cs.dropWhile isPySpace).reverse.dropWhile isPySpace).reverse

/-- Python `str.strip()` as a String operation. -/
def pyStrip (s : String) : String :=
  String.mk (stripChars s.data)

/-- Index of the first occurrence of `needle` in `hay` (`str.find`
semantics for the nonempty needles the source uses). -/
def findSub (needle : List Char) : List Char → Nat → Option Nat
  | hay, i =>
    if needle.isPrefixOf hay then some i
    else
      match hay with
      | [] => none
      | _ :: rest => findSub needle rest (i + 1)

/-- Python `sep in text` for a substring. -/
def containsSub (needle hay : List Char) : Bool :=
  (findSub needle hay 0).isSome

/-- Python `text.split(sep, 1)` when the separator occurs; `none` models
the single-element result that makes a two-target unpacking raise. -/
def splitOnce (sep cs : List Char) : Option (List Char × List Char) :=
  (findSub sep cs 0).map (fun i => (cs.take i, cs.drop (i + sep.length)))

/-- Python `text.split(",")`: every comma splits, empty segments kept. -/
def splitComma : List Char → List (List Char)
  | [] => [[]]
  | c :: rest =>
    if c == ',' then [] :: splitComma rest
    else
      match splitComma rest with
      | s :: ss => (c :: s) :: ss
      | [] => [[c]]

/-- Node pattern of a structured rule side (`SidePattern`); `op` is
`none` for the bare-variable form (and may be `some ""`, which the
matcher treats as unconstrained via truthiness, as in the source). -/
structure SidePattern where
  op : Option String
  var : String
deriving DecidableEq, Repr

/-- One `left --label--> right` edge pattern. -/
structure EdgePattern where
  left : SidePattern
  edge_label : String
  right : SidePattern
deriving DecidableEq, Repr

/-- Ordered list of edge patterns of a structured rule. -/
structure RulePattern where
  edges : List EdgePattern
deriving DecidableEq, Repr

/-- Embedding of `parse_side` from sid_rewrite.py. -/
def parse_side (text : String) : Except String SidePattern :=
  let t := stripChars text.data
  if containsSub ['('] t && (match t.getLast? with | some c => c == ')' | none => false) then
    match splitOnce ['('] t with
    | some pr =>
      let op := stripChars pr.1
      let v := stripChars (pr.2.take (pr.2.length - 1))
      if v = [] then .error ("Invalid side pattern: " ++ String.mk t)
      else .ok { op := some (String.mk op), var := String.mk v }
    | none => .error ("Invalid side pattern: " ++ String.mk t)
  else .ok { op := none, var := String.mk t }

/-- Segment loop of `parse_rule_pattern`. -/
def parseRuleSegments : List (List Char) → Except String (List EdgePattern)
  | [] => .ok []
  | seg :: rest =>
    if !(containsSub ['-', '-'] seg && containsSub ['-', '-', '>'] seg) then
      .error ("Invalid rule segment: " ++ String.mk seg)
    else
      match splitOnce ['-', '-'] seg with
      | none => .error ("Invalid rule segment: " ++ String.mk seg)
      | some lp =>
        match splitOnce ['-', '-', '>'] lp.2 with
        | none =>
          -- two-target unpacking of a one-element split result raises
          .error "not enough values to unpack (expected 2, got 1)"
        | some er => do
          let left ← parse_side (String.mk lp.1)
          let right ← parse_side (String.mk er.2)
          let tail ← parseRuleSegments rest
          pure ({ left := left, edge_label := String.mk (stripChars er.1),
                  right := right } :: tail)

/-- Embedding of `parse_rule_pattern` from sid_rewrite.py. -/
def parse_rule_pattern (text : String) : Except String RulePattern := do
  if !(containsSub ['-', '-'] text.data && containsSub ['-', '-', '>'] text.data) then
    .error ("Invalid rule pattern: " ++ text)
  else
    let segments := (splitComma text.data).map stripChars |>.filter (fun s => s ≠ [])
    let edges ← parseRuleSegments segments
    pure { edges := edges }

/-- Variable bindings of the matcher: a Python dict from variable name to
node id (plus the reserved `_edge_ids` key on a complete match). -/
abbrev Bindings := List (String × String)

/-- Python `merged[key] = value`: replace in place if present, else
append (dict keeps first-insertion order). -/
def bindInsert (m : Bindings) (k v : String) : Bindings :=
  if (m.find? (fun p => p.1 == k)).isSome then
    m.map (fun p => if p.1 == k then (k, v) else p)
  else m ++ [(k, v)]

/-- List-as-set add used for the matcher's id sets. -/
def setAdd (s : List String) (x : String) : List String :=
  if s.contains x then s else s ++ [x]

/-- Embedding of `match_side`: an op-constrained pattern (truthy op)
requires the node op to agree; a node without a truthy id never matches;
on success the pattern variable binds the node id. -/
def match_side (p : SidePattern) (node : Node) : Option Bindings :=
  if strTruthy p.op && node.op != p.op.getD "" then none
  else if node.id = "" then none
  else some [(p.var, node.id)]

/-- Embedding of `merge_bindings`. -/
def merge_bindings : Option Bindings → Option Bindings → Option Bindings
  | some a, some b => go a b
  | _, _ => none
where
  go : Bindings → Bindings → Option Bindings
    | a, [] => some a
    | a, (k, v) :: rest =>
      match dictGet a k with
      | some v2 => if v2 ≠ v then none else go (bindInsert a k v) rest
      | none => go (bindInsert a k v) rest

/-- Embedding of `match_edge_pattern`. -/
def match_edge_pattern (p : EdgePattern) (e : Edge) (nodesOf : String → Option Node)
    (bindings : Bindings) : Option Bindings :=
  if e.label != p.edge_label then none
  else
    match nodesOf e.fromId, nodesOf e.toId with
    | some fn, some tn =>
      merge_bindings (some bindings) (merge_bindings (match_side p.left fn) (match_side p.right tn))
    | _, _ => none

/-- Ascending insertion used to model Python `sorted` on strings. -/
def insertSorted (x : String) : List String → List String
  | [] => [x]
  | y :: rest => if x < y then x :: y :: rest else y :: insertSorted x rest

/-- Python `sorted` on a list of strings (code-point lexicographic). -/
def sortStrings (l : List String) : List String :=
  l.foldr insertSorted []

mutual

/-- Backtracking worker of `find_first_match` over the remaining edge
patterns; a complete match stores the sorted consumed edge ids under the
reserved `_edge_ids` binding. -/
def backtrackMatch (edges : List Edge) (nodesOf : String → Option Node)
    (forbidden : List String) :
    List EdgePattern → Bindings → List String → Option Bindings
  | [], bindings, used =>
    some (bindInsert bindings "_edge_ids" (String.intercalate "," (sortStrings used)))
  | ep :: restPs, bindings, used =>
    tryCandidates edges nodesOf forbidden ep restPs edges bindings used
termination_by ps _ _ => (ps.length, 0, 0)

/-- Candidate loop of the backtracking worker: try each unconsumed,
unforbidden edge against the current pattern and recurse. -/
def tryCandidates (edges : List Edge) (nodesOf : String → Option Node)
    (forbidden : List String) (ep : EdgePattern) (restPs : List EdgePattern) :
    List Edge → Bindings → List String → Option Bindings
  | [], _, _ => none
  | e :: es, bindings, used =>
    if e.id = "" || used.contains e.id || forbidden.contains e.id then
      tryCandidates edges nodesOf forbidden ep restPs es bindings used
    else
      match match_edge_pattern ep e nodesOf bindings with
      | none => tryCandidates edges nodesOf forbidden ep restPs es bindings used
      | some nb =>
        match backtrackMatch edges nodesOf forbidden restPs nb (used ++ [e.id]) with
        | some r => some r
        | none => tryCandidates edges nodesOf forbidden ep restPs es bindings used
termination_by cands _ _ => (restPs.length, 1, cands.length)

end

/-- Start-edge loop of `find_first_match` (the inlined first pattern
iteration of the source). -/
def startMatchLoop (edges : List Edge) (nodesOf : String → Option Node)
    (forbidden : List String) (ep0 : EdgePattern) (restPs : List EdgePattern) :
    List Edge → Option Bindings
  | [] => none
  | e :: es =>
    if e.id = "" || forbidden.contains e.id then
      startMatchLoop edges nodesOf forbidden ep0 restPs es
    else
      match match_edge_pattern ep0 e nodesOf [] with
      | none => startMatchLoop edges nodesOf forbidden ep0 restPs es
      | some initial =>
        match backtrackMatch edges nodesOf forbidden restPs initial [e.id] with
        | some r => some r
        | none => startMatchLoop edges nodesOf forbidden ep0 restPs es

/-- Embedding of `find_first_match` from sid_rewrite.py. An empty
pattern-edge list cannot come out of `parse_rule_pattern`, matching the
unchecked `pattern.edges[0]` subscript of the source. -/
def find_first_match (diagram : Diagram) (pattern : RulePattern)
    (forbidden_edges : List String := []) : Option Bindings :=
  match pattern.edges with
  | [] => none
  | ep0 :: restPs =>
    startMatchLoop diagram.edges (pyDictLast Node.id diagram.nodes) forbidden_edges
      ep0 restPs diagram.edges

/-- Python `",".join(...).split(",")` round trip used for the consumed
edge ids. -/
def splitCommaStr (s : String) : List String :=
  (splitComma s.data).map String.mk

/-- Embedding of `find_all_matches`: repeat `find_first_match`, each time
forbidding the consumed edges of earlier matches, until no match or the
match cap; fuel is exactly the `max_matches` cap of the source. -/
def find_all_matches (diagram : Diagram) (pattern : RulePattern)
    (max_matches : Nat := 1000) : List Bindings :=
  go max_matches [] []
where
  go : Nat → List Bindings → List String → List Bindings
    | 0, acc, _ => acc
    | fuel + 1, acc, forbidden =>
      match find_first_match diagram pattern forbidden with
      | none => acc
      | some m =>
        let raw := (dictGet m "_edge_ids").getD ""
        let forbidden := if raw ≠ "" then forbidden ++ splitCommaStr raw else forbidden
        go fuel (acc ++ [m]) forbidden

/-- Search loop of `_next_id`: the least index from 1 whose candidate id
is unused. Fuel `existing.length + 1` always suffices by pigeonhole, so
the 0 branch is unreachable. -/
def pyNextIdAux (existing : List String) (pre : String) : Nat → Nat → String
  | 0, idx => pre ++ toString idx
  | fuel + 1, idx =>
    let cand := pre ++ toString idx
    if existing.contains cand then pyNextIdAux existing pre fuel (idx + 1) else cand

/-- Embedding of `_next_id` given the existing id set. -/
def pyNextId (existing : List String) (pre : String) : String :=
  pyNextIdAux existing pre (existing.length + 1) 1

/-- Truthy node ids of a node list (`_next_id` with id_type "node"). -/
def nodeIdsOf (nodes : List Node) : List String :=
  nodes.filterMap (fun n => if n.id = "" then none else some n.id)

/-- Truthy edge ids of an edge list (`_next_id` with id_type "edge"). -/
def edgeIdsOf (edges : List Edge) : List String :=
  edges.filterMap (fun e => if e.id = "" then none else some e.id)

/-- Working state of `apply_replacement`: the node and edge lists under
construction, the (mutated) bindings, and the wrapper cache. -/
structure RepState where
  nodes : List Node
  edges : List Edge
  bindings : Bindings
  cache : List ((String × String) × String)

/-- Embedding of the inner `ensure_node` of `apply_replacement`: reuse a
truthy-bound node (wrapping it when the side carries an op, via the
wrapper cache), or create a fresh node, binding the variable; a bare
unbound variable raises. -/
def ensure_node (rule_id : String) (side : SidePattern) (st : RepState) :
    Except String (String × RepState) :=
  let bound := (dictGet st.bindings side.var).getD ""
  if bound ≠ "" then
    match side.op with
    | none => .ok (bound, st)
    | some op =>
      let cached := ((st.cache.find? (fun p => p.1 == (op, bound))).map (fun p => p.2)).getD ""
      if cached ≠ "" then .ok (cached, st)
      else
        let newId := pyNextId (nodeIdsOf st.nodes) (rule_id ++ "_n")
        let newNode : Node := { id := newId, op := op, inputs := [bound] }
        .ok (newId, { st with nodes := st.nodes ++ [newNode],
                              cache := st.cache ++ [((op, bound), newId)] })
  else
    match side.op with
    | none => .error ("Unbound variable " ++ side.var ++ " requires op in replacement")
    | some op =>
      let newId := pyNextId (nodeIdsOf st.nodes) (rule_id ++ "_n")
      let newNode : Node := { id := newId, op := op, inputs := [] }
      .ok (newId, { st with nodes := st.nodes ++ [newNode],
                            bindings := bindInsert st.bindings side.var newId })

/-- Replacement-edge loop of `apply_replacement`. -/
def applyReplacementEdges (rule_id : String) :
    List EdgePattern → RepState → Except String RepState
  | [], st => .ok st
  | ep :: rest, st => do
    let fr ← ensure_node rule_id ep.left st
    let tr ← ensure_node rule_id ep.right fr.2
    let st := tr.2
    let newEdgeId := pyNextId (edgeIdsOf st.edges) (rule_id ++ "_e")
    applyReplacementEdges rule_id rest
      { st with edges := st.edges ++
          [{ id := newEdgeId, fromId := fr.1, toId := tr.1, label := ep.edge_label }] }

/-- Embedding of `apply_replacement` from sid_rewrite.py: drop the
consumed pattern edges, then build the replacement edges, reusing bound
nodes and creating the rest. -/
def apply_replacement (diagram : Diagram) (replacement : RulePattern)
    (bindings : Bindings) (rule_id : String) : Except String Diagram := do
  let usedRaw := (dictGet bindings "_edge_ids").getD ""
  let usedEdgeIds := if usedRaw ≠ "" then splitCommaStr usedRaw else []
  let edges := diagram.edges.filter (fun e => usedEdgeIds.contains e.id = false)
  let st ← applyReplacementEdges rule_id replacement.edges
    { nodes := diagram.nodes, edges := edges, bindings := bindings, cache := [] }
  pure { diagram with nodes := st.nodes, edges := st.edges }

/-- Embedding of `is_variable` from sid_rewrite.py. -/
def is_variable (atom : String) : Bool :=
  if atom.startsWith "$" then true
  else
    match atom.data with
    | [c] => c.isLower
    | _ => false

/-- Python `name.lstrip("$")`. -/
def lstripDollar (s : String) : String :=
  String.mk (s.data.dropWhile (fun c => c == '$'))

mutual

/-- Embedding of `match_expr` from sid_rewrite.py: walk the expression
against the diagram from `node_id`, threading bindings and the
matched/bound node sets (the mutable sets of the source, threaded by
value; a failed call aborts the whole root, so its set pollution is
unobservable, exactly as in the source). -/
def matchExpr (nodesOf : String → Option Node) :
    Expr → String → Bindings → List String → List String →
    Option Bindings × List String × List String
  | expr, node_id, bindings, matched, bound =>
    match nodesOf node_id with
    | none => (none, matched, bound)
    | some node =>
      match expr with
      | .atom name =>
        if is_variable name then
          let varName := lstripDollar name
          let existing := (dictGet bindings varName).getD ""
          if existing ≠ "" && existing ≠ node_id then (none, matched, bound)
          else (some (bindInsert bindings varName node_id), matched, setAdd bound node_id)
        else if node.op == "P" && node.dof_refs.contains name then
          (some bindings, matched, bound)
        else if node.meta_atom_args.contains name then
          (some bindings, matched, bound)
        else (none, matched, bound)
      | .opExpr op args =>
        if node.op ≠ op then (none, matched, bound)
        else
          let matched := setAdd matched node_id
          if node.inputs ≠ [] then
            if node.inputs.length < args.length then (none, matched, bound)
            else matchExprArgs nodesOf args node.inputs bindings matched bound
          else
            if op = "P" && !args.isEmpty then
              match args with
              | .atom aname :: _ =>
                if is_variable aname then
                  let varName := lstripDollar aname
                  let existing := (dictGet bindings varName).getD ""
                  if existing ≠ "" && existing ≠ node_id then (none, matched, bound)
                  else
                    (some (bindInsert bindings varName node_id), matched, setAdd bound node_id)
                else if node.dof_refs.contains aname then (some bindings, matched, bound)
                else (none, matched, bound)
              | _ => (none, matched, bound)
            else if !args.isEmpty then (none, matched, bound)
            else (some bindings, matched, bound)

/-- Zip loop of `match_expr` over (argument expression, input id) pairs. -/
def matchExprArgs (nodesOf : String → Option Node) :
    List Expr → List String → Bindings → List String → List String →
    Option Bindings × List String × List String
  | [], _, bindings, matched, bound => (some bindings, matched, bound)
  | _ :: _, [], bindings, matched, bound => (some bindings, matched, bound)
  | a :: as_, i :: irest, bindings, matched, bound =>
    let r := matchExpr nodesOf a i bindings matched bound
    match r.1 with
    | none => (none, r.2.1, r.2.2)
    | some b2 => matchExprArgs nodesOf as_ irest b2 r.2.1 r.2.2

end

/-- Embedding of `find_expr_match`: try every node id in dict order as a
match root with fresh bindings and sets. -/
def find_expr_match (diagram : Diagram) (expr : Expr) :
    Option (String × Bindings × List String × List String) :=
  go (diagramNodeIds diagram)
where
  go : List String → Option (String × Bindings × List String × List String)
    | [] => none
    | nid :: rest =>
      let r := matchExpr (pyDictLast Node.id diagram.nodes) expr nid [] [] []
      match r.1 with
      | some b => some (nid, b, r.2.1, r.2.2)
      | none => go rest

mutual

/-- Embedding of `build_expr` from sid_rewrite.py: materialize the
replacement expression, reusing bound variables, generating fresh
node/edge ids, and marking O nodes irreversible; an unbound bare
variable raises. -/
def buildExprRw (rule_id : String) :
    Expr → List Node → List Edge → Bindings →
    Except String (String × List Node × List Edge)
  | .atom name, nodes, edges, bindings =>
    if is_variable name then
      let nid := (dictGet bindings (lstripDollar name)).getD ""
      if nid = "" then .error ("Unbound variable " ++ name)
      else .ok (nid, nodes, edges)
    else
      let nid := pyNextId (nodeIdsOf nodes) (rule_id ++ "_n")
      .ok (nid, nodes ++ [{ id := nid, op := "P", dof_refs := [name] }], edges)
  | .opExpr op args, nodes, edges, bindings => do
    let ir ← buildExprRwArgs rule_id args nodes edges bindings
    let inputIds := ir.1
    let nodes := ir.2.1
    let edges := ir.2.2
    let nodeId := pyNextId (nodeIdsOf nodes) (rule_id ++ "_n")
    let dofs : List String :=
      match args with
      | .atom aname :: _ => if op = "P" && !(is_variable aname) then [aname] else []
      | _ => []
    let node : Node :=
      { id := nodeId, op := op, inputs := inputIds, dof_refs := dofs,
        irreversible := op == "O" }
    let nodes := nodes ++ [node]
    let edges := inputIds.foldl (fun es inputId =>
      es ++ [{ id := pyNextId (edgeIdsOf es) (rule_id ++ "_e"),
               fromId := inputId, toId := nodeId, label := "arg" : Edge }]) edges
    .ok (nodeId, nodes, edges)

/-- Argument loop of `build_expr`, threading the node and edge lists. -/
def buildExprRwArgs (rule_id : String) :
    List Expr → List Node → List Edge → Bindings →
    Except String (List String × List Node × List Edge)
  | [], nodes, edges, _ => .ok ([], nodes, edges)
  | a :: rest, nodes, edges, bindings => do
    let r ← buildExprRw rule_id a nodes edges bindings
    let rr ← buildExprRwArgs rule_id rest r.2.1 r.2.2 bindings
    .ok (r.1 :: rr.1, rr.2.1, rr.2.2)

end

/-- Embedding of `_has_cycle` from sid_rewrite.py (the DFS shared with
the `no_cycles` predicate; the source duplicates the code). -/
def pyHasCycle (d : Diagram) : Bool :=
  (cycleTop (edgesByFrom d) (cycleFuel d) (diagramNodeIds d) []).isSome

/-- Immutable rewrite-result record of sid_rewrite.py (`RewriteResult`);
deep copies are identities on immutable Lean values. -/
structure RewriteResult where
  applied : Bool
  diagram : Diagram
  messages : List String
deriving DecidableEq, Repr

/-- Rendering of the structured parse errors back to the source's message
text (the `repr` quoting of interpolated values is omitted). -/
def renderParseErr : ParseErr → String
  | .unexpectedChar line col c =>
    "Unexpected character at line " ++ toString line ++ ", column " ++ toString col ++
      ": " ++ String.mk [c]
  | .unexpectedEndOfInput => "Unexpected end of input"
  | .expectedKind expected pos got =>
    "Expected " ++ expected ++ " at " ++ toString pos ++ ", got " ++ got
  | .emptyExpression => "Empty expression"
  | .unknownOperator v line col =>
    "Unknown operator " ++ v ++ " at line " ++ toString line ++ ", column " ++ toString col
  | .arityMin op minArgs got pos =>
    "Operator " ++ op ++ " requires at least " ++ toString minArgs ++
      " argument(s), got " ++ toString got ++ " at position " ++ toString pos
  | .arityMax op maxArgs got pos =>
    "Operator " ++ op ++ " accepts at most " ++ toString maxArgs ++
      " argument(s), got " ++ toString got ++ " at position " ++ toString pos
  | .unexpectedToken kind pos => "Unexpected token " ++ kind ++ " at " ++ toString pos
  | .trailingToken v pos => "Unexpected trailing token " ++ v ++ " at " ++ toString pos
  | .outOfFuel => "out of fuel"

/-- The `rewrite_rule.get("id", "rw")` lookup; a missing id key is
modelled as the empty string. -/
def ruleIdOrRw (rewrite_rule : RewriteRule) : String :=
  if rewrite_rule.id = "" then "rw" else rewrite_rule.id

/-- Per-match application loop of the structured-pattern path of
`apply_rewrite_stub`: apply the replacement for each binding set,
stopping with the partial result when a replacement raises. -/
def applyMatchesLoop (replacement : RulePattern) (ruleName ruleId : String) :
    List Bindings → Diagram → Bool → List String → RewriteResult
  | [], current, appliedAny, msgs =>
    { applied := appliedAny, diagram := current,
      messages := msgs ++ ["Rewrite " ++ ruleName ++ " applied"] }
  | b :: rest, current, appliedAny, msgs =>
    match apply_replacement current replacement b ruleId with
    | .error exc =>
      { applied := appliedAny, diagram := current, messages := msgs ++ ["ERROR: " ++ exc] }
    | .ok newd => applyMatchesLoop replacement ruleName ruleId rest newd true msgs

/-- Tail of the structured-pattern path of `apply_rewrite_stub`: reject
with "not applicable" when no (truthy) binding sets were found, else run
the per-match application loop. -/
def structuredRuleApply (messages : List String) (diagram : Diagram)
    (rewrite_rule : RewriteRule) (replacement : RulePattern)
    (bindingsList : List Bindings) : RewriteResult :=
  if bindingsList.isEmpty then
    { applied := false, diagram := diagram,
      messages := messages ++ ["Rewrite " ++ rewrite_rule.id ++ " not applicable"] }
  else
    applyMatchesLoop replacement rewrite_rule.id (ruleIdOrRw rewrite_rule)
      bindingsList diagram false messages

/-- Pattern-path body of `apply_rewrite_stub` (everything after the
authorization gate): the expression-pattern path with its parse, match,
build, rewire and cycle-check steps, and the structured-pattern path
with its parse, match and per-match application steps. The `Except`
carries the one exception the source does not catch (a `ValueError`
escaping the un-guarded `build_expr` call). -/
def rewriteStubPatterns (messages : List String) (diagram : Diagram)
    (rewrite_rule : RewriteRule) (apply_all : Bool) : Except String RewriteResult :=
  if strTruthy rewrite_rule.pattern_expr && strTruthy rewrite_rule.replacement_expr then
    match parse_expression (rewrite_rule.pattern_expr.getD "") with
    | .error exc =>
      .ok { applied := false, diagram := diagram,
            messages := messages ++ ["ERROR: " ++ renderParseErr exc] }
    | .ok pattern_expr =>
      match parse_expression (rewrite_rule.replacement_expr.getD "") with
      | .error exc =>
        .ok { applied := false, diagram := diagram,
              messages := messages ++ ["ERROR: " ++ renderParseErr exc] }
      | .ok replacement_expr =>
        match find_expr_match diagram pattern_expr with
        | none =>
          .ok { applied := false, diagram := diagram,
                messages := messages ++
                  ["Rewrite " ++ rewrite_rule.id ++ " not applicable"] }
        | some m =>
          match buildExprRw (ruleIdOrRw rewrite_rule) replacement_expr
              diagram.nodes diagram.edges m.2.1 with
          | .error exc => .error exc
          | .ok br =>
            let newRoot := br.1
            let removeNodes := m.2.2.1.filter (fun x => (m.2.2.2).contains x = false)
            let newEdges := br.2.2.foldl (fun acc e =>
              if removeNodes.contains e.toId then acc ++ [{ e with toId := newRoot }]
              else if removeNodes.contains e.fromId || removeNodes.contains e.toId then acc
              else acc ++ [e]) []
            let newNodes := br.2.1.filter (fun n => removeNodes.contains n.id = false)
            let newDiagram := { diagram with nodes := newNodes, edges := newEdges }
            if pyHasCycle newDiagram then
              .ok { applied := false, diagram := diagram,
                    messages := messages ++
                      ["ERROR: Rewrite " ++ rewrite_rule.id ++ " would introduce cycle"] }
            else
              .ok { applied := true, diagram := newDiagram,
                    messages := messages ++
                      ["Rewrite " ++ rewrite_rule.id ++ " applied"] }
  else
    match parse_rule_pattern (rewrite_rule.pattern.getD "") with
    | .error exc =>
      .ok { applied := false, diagram := diagram,
            messages := messages ++ ["ERROR: " ++ exc] }
    | .ok pattern =>
      match parse_rule_pattern (rewrite_rule.replacement.getD "") with
      | .error exc =>
        .ok { applied := false, diagram := diagram,
              messages := messages ++ ["ERROR: " ++ exc] }
      | .ok replacement =>
        let bindingsList :=
          if apply_all then find_all_matches diagram pattern 1000
          else
            match find_first_match diagram pattern [] with
            | some b => [b]
            | none => []
        .ok (structuredRuleApply messages diagram rewrite_rule replacement
               (bindingsList.filter (fun b => b.isEmpty = false)))

/-- Embedding of `apply_rewrite_stub` from sid_rewrite.py: ensure labels,
authorize (rejecting with the errors as a no-op), then run the pattern
paths. Every return of the source carries the same (mutated) caller
state, so the result is paired with it once at the end. -/
def apply_rewrite_stub (constraints : List Constraint) (state : SidState)
    (diagram : Diagram) (csi : CSI) (rewrite_rule : RewriteRule)
    (apply_all : Bool := false) : Except String (RewriteResult × SidState) :=
  let state :=
    if state.inu_labels.isNone then
      { state with inu_labels := some (assign_inu_labels diagram constraints state csi) }
    else state
  let ar := authorize_rewrite constraints state diagram csi rewrite_rule
  let state := ar.2
  let messages := ar.1.2.2.map (fun w => "WARNING: " ++ w)
  let result : Except String RewriteResult :=
    if ar.1.1 = false then
      .ok { applied := false, diagram := diagram,
            messages := messages ++ ar.1.2.1.map (fun e => "ERROR: " ++ e) }
    else rewriteStubPatterns messages diagram rewrite_rule apply_all
  result.map (fun res => (res, state))

/-- Package record (the top-level collections the stability checker
reads). -/
structure Package where
  diagrams : List Diagram := []
  states : List SidState := []
  csis : List CSI := []
  constraints : List Constraint := []
  rewrite_rules : List RewriteRule := []
deriving DecidableEq, Repr

/-- Python dict comprehension `{x["id"]: x for x in l if "id" in x}`:
last-wins lookup by id (the id key is always present on the embedded
records). -/
def pyDictById {α : Type} (key : α → String) (l : List α) (k : String) : Option α :=
  l.foldl (fun acc x => if key x == k then some x else acc) none

/-- Python `a or b` on two optional strings: the first operand when
truthy, else the second operand as is. -/
def pyOr (a b : Option String) : Option String :=
  if strTruthy a then a else b

/-- Embedding of `check_only_identity_rewrites` from sid_stability.py:
scan all given rules and fail on the first whose pattern string
(falling back to the expression form) differs from its replacement
string. -/
def check_only_identity_rewrites (rewrite_rules : List RewriteRule)
    (_diagram : Diagram) : Bool × String :=
  go rewrite_rules
where
  go : List RewriteRule → Bool × String
    | [] => (true, "Only identity rewrites authorized")
    | r :: rest =>
      if pyOr r.pattern r.pattern_expr ≠ pyOr r.replacement r.replacement_expr then
        (false, "Non-identity rewrite " ++ r.id ++ " present")
      else go rest

/-- Distinct-key union `set(prev) | set(curr)` of two label maps; only
its cardinality and membership matter downstream. -/
def labelKeyUnion (prev curr : List (String × String)) : List String :=
  dedupFirst (prev.map (fun p => p.1) ++ curr.map (fun p => p.1))

/-- Count of keys whose label changed between two snapshots
(`prev.get(key) != curr.get(key)` over the key union). -/
def changedLabelCount (prev curr : List (String × String)) : Nat :=
  ((labelKeyUnion prev curr).filter (fun k => dictGet prev k ≠ dictGet curr k)).length

/-- Embedding of `check_loop_convergence` from sid_stability.py. The
float tolerance is modelled as a rational. -/
def check_loop_convergence (state : SidState)
    (tolerance : Rat := 1 / 1000000) : Bool × String :=
  let lh := state.loop_history
  if lh.length < 2 then (false, "Insufficient loop history for convergence check")
  else
    match lh.reverse with
    | curr :: prev :: _ =>
      let prevState := prev.inu_labels
      let currState := curr.inu_labels
      let allKeys := labelKeyUnion prevState currState
      let changes := changedLabelCount prevState currState
      if changes = 0 then (true, "Loop has fully converged (no changes)")
      else
        let changeRatio : Rat :=
          if allKeys.length > 0 then (changes : Rat) / (allKeys.length : Rat) else 0
        if changeRatio < tolerance then
          (true, "Loop gain converged (change ratio: " ++ toString changeRatio ++ ")")
        else
          (false, "Loop not converged (change ratio: " ++ toString changeRatio ++ ")")
    | _ => (false, "Cannot determine convergence")

/-- Metrics dictionary of `compute_stability_metrics`; a Python `None`
value becomes `none`, a numeric value `some`. -/
structure StabilityMetrics where
  admissible_volume : Nat
  admissible_ratio : Option Rat
  collapse_count : Nat
  collapse_ratio : Option Rat
  coupling_count : Nat
  gradient_coherence : Option Rat
  transport_count : Nat
  transport_fidelity : Option Rat
  loop_gain : Option Rat
deriving DecidableEq, Repr

/-- Embedding of `compute_stability_metrics` from sid_stability.py; the
empty dict returned for a missing state or diagram becomes `none`. -/
def compute_stability_metrics (pkg : Package) (state_id diagram_id : String) :
    Option StabilityMetrics :=
  match pyDictById SidState.id pkg.states state_id,
        pyDictById Diagram.id pkg.diagrams diagram_id with
  | some state, some diagram =>
    let inu := state.inu_labels.getD []
    let admissibleCount := (inu.filter (fun p => p.2 == "I")).length
    let totalCount := inu.length
    let nodes := diagram.nodes
    let collapseNodes := nodes.filter (fun n => n.op == "O")
    let couplingNodes := nodes.filter (fun n => n.op == "C")
    let transportNodes := nodes.filter (fun n => n.op == "T")
    let validTransports :=
      (transportNodes.filter (fun n => strTruthy n.meta_target_compartment)).length
    let lh := state.loop_history
    some
      { admissible_volume := admissibleCount
        admissible_ratio :=
          if totalCount > 0 then some ((admissibleCount : Rat) / (totalCount : Rat))
          else some 0
        collapse_count := collapseNodes.length
        collapse_ratio :=
          if nodes.isEmpty then some 0
          else some ((collapseNodes.length : Rat) / (nodes.length : Rat))
        coupling_count := couplingNodes.length
        gradient_coherence :=
          if nodes.isEmpty then some 0
          else some ((couplingNodes.length : Rat) / (nodes.length : Rat))
        transport_count := transportNodes.length
        transport_fidelity :=
          if transportNodes.isEmpty then none
          else some ((validTransports : Rat) / (transportNodes.length : Rat))
        loop_gain :=
          if lh.length ≥ 2 then
            match lh.reverse with
            | curr :: prev :: _ =>
              let allKeys := labelKeyUnion prev.inu_labels curr.inu_labels
              if allKeys.isEmpty then some 0
              else some ((changedLabelCount prev.inu_labels curr.inu_labels : Rat) /
                (allKeys.length : Rat))
            | _ => some 0
          else none }
  | _, _ => none

/-- Diagram that compiling Scenario B's expression produces (checked
literally by the C7 theorem below). -/
def scenarioB_diagram : Diagram :=
  { id := "d_expr",
    nodes := [{ id := "n1", op := "P", dof_refs := ["Freedom"] },
              { id := "n2", op := "P", dof_refs := ["Justice"] },
              { id := "n3", op := "C", inputs := ["n1", "n2"] }],
    edges := [{ id := "e4", fromId := "n1", toId := "n3", label := "arg" },
              { id := "e5", fromId := "n2", toId := "n3", label := "arg" }] }

/-- State with two identical loop-history snapshots (convergence witness
input). -/
def convHistState : SidState :=
  { id := "s",
    loop_history := [{ inu_labels := [("a", "I")] }, { inu_labels := [("a", "I")] }] }

/-- Package whose diagram has no nodes and whose state has no labels:
every ratio denominator is zero. -/
def cexMetricsPkg : Package :=
  { diagrams := [{ id := "d" }], states := [{ id := "s" }] }

/-- Spec-side reading of "identity rewrite" for claim C6: the rule's
pattern is structurally equal to its replacement — for the expression
form the parsed ASTs coincide, for the structured form the parsed rule
patterns coincide. Stated from the spec's words, to be compared with the
string comparison the source performs. -/
def specIdentityRewrite (r : RewriteRule) : Prop :=
  (strTruthy r.pattern_expr = true ∧ strTruthy r.replacement_expr = true ∧
    parse_expression (r.pattern_expr.getD "") = parse_expression (r.replacement_expr.getD "")) ∨
  (strTruthy r.pattern = true ∧ strTruthy r.replacement = true ∧
    parse_rule_pattern (r.pattern.getD "") = parse_rule_pattern (r.replacement.getD ""))

/-- Rule whose pattern and replacement differ only in whitespace: the
parsed ASTs are equal but the strings are not. -/
def cexIdentityRule : RewriteRule :=
  { id := "w", pattern_expr := some "P($x)", replacement_expr := some "P( $x )" }

/-- Whether a constraint's registered predicate fails on the whole
diagram (the failure notion of the label-assignment claim, phrased from
the same registry lookup the source performs). -/
def constraintFails (c : Constraint) (state : SidState) (diagram : Diagram) (csi : CSI) : Bool :=
  strTruthy c.predicate &&
    (match PREDICATES (c.predicate.getD "") with
     | some p => !(p state diagram csi).1
     | none => false)

/-- Some hard constraint's predicate fails globally. -/
def anyHardConstraintFails (cs : List Constraint) (state : SidState) (diagram : Diagram)
    (csi : CSI) : Bool :=
  cs.any (fun c => constraintFails c state diagram csi && c.ctype == some "hard")

/-- Some non-hard constraint's predicate fails globally. -/
def anySoftConstraintFails (cs : List Constraint) (state : SidState) (diagram : Diagram)
    (csi : CSI) : Bool :=
  cs.any (fun c => constraintFails c state diagram csi && !(c.ctype == some "hard"))

/-- The single diagram-global label value the assignment claim predicts:
I with no constraints, else N after a hard failure, else U after a soft
failure, else I. -/
def globalLabelValue (cs : List Constraint) (state : SidState) (diagram : Diagram)
    (csi : CSI) : String :=
  if cs.isEmpty then "I"
  else if anyHardConstraintFails cs state diagram csi then "N"
  else if anySoftConstraintFails cs state diagram csi then "U"
  else "I"

/-- One-node diagram used as a concrete label-assignment input. -/
def wNode : Node := { id := "n1", op := "P" }

/-- Diagram wrapping `wNode`. -/
def wLabelDiagram : Diagram := { id := "d", nodes := [wNode], edges := [] }

/-- Empty diagram used as a concrete rewrite input. -/
def wRejectDiagram : Diagram := { id := "d" }

/-- Label-free state used as a concrete rewrite input. -/
def wRejectState : SidState := { id := "s" }

/-- Rejection result that `apply_rewrite_stub` produces on `wRejectState`
and an empty rule (its empty pattern fails to parse). -/
def wRejectRes : RewriteResult :=
  { applied := false, diagram := wRejectDiagram,
    messages := ["ERROR: Invalid rule pattern: "] }

/-- State after `apply_rewrite_stub` inserted the label map of the empty
diagram. -/
def wRejectStateAfter : SidState := { id := "s", inu_labels := some [] }

/-- Phase 1 of `assign_inu_labels` reports a hard failure exactly when
some hard constraint's predicate fails (the early break does not change
the flag). -/
theorem phase1Global_fst (state : SidState) (diagram : Diagram) (csi : CSI) :
    ∀ (cs : List Constraint) (soft : Bool),
      (phase1Global state diagram csi cs soft).1 =
        anyHardConstraintFails cs state diagram csi := by
  intro cs
  induction cs with
  | nil => intro soft; simp [phase1Global, anyHardConstraintFails]
  | cons c rest ih =>
    intro soft
    simp only [phase1Global, anyHardConstraintFails, List.any_cons]
    by_cases hp : strTruthy c.predicate
    · simp only [hp, if_true]
      match hP : PREDICATES (c.predicate.getD "") with
      | none => simp [constraintFails, hp, hP, ih soft, anyHardConstraintFails]
      | some p =>
        by_cases hok : (p state diagram csi).1
        · simp [constraintFails, hp, hP, hok, ih soft, anyHardConstraintFails]
        · by_cases hh : c.ctype = some "hard"
          · simp [constraintFails, hp, hP, hok, hh]
          · simp [constraintFails, hp, hP, hok, hh, ih true, anyHardConstraintFails]
    · simp only [hp]
      simp [constraintFails, hp, ih soft, anyHardConstraintFails]

/-- Without a hard failure, phase 1 accumulates exactly the
some-soft-constraint-fails flag. -/
theorem phase1Global_snd (state : SidState) (diagram : Diagram) (csi : CSI) :
    ∀ (cs : List Constraint) (soft : Bool),
      anyHardConstraintFails cs state diagram csi = false →
      (phase1Global state diagram csi cs soft).2 =
        (soft || anySoftConstraintFails cs state diagram csi) := by
  intro cs
  induction cs with
  | nil => intro soft _; simp [phase1Global, anySoftConstraintFails]
  | cons c rest ih =>
    intro soft hh
    simp only [anyHardConstraintFails, List.any_cons, Bool.or_eq_false_iff] at hh
    simp only [phase1Global, anySoftConstraintFails, List.any_cons]
    by_cases hp : strTruthy c.predicate
    · simp only [hp, if_true]
      match hP : PREDICATES (c.predicate.getD "") with
      | none => simp [constraintFails, hp, hP, ih soft hh.2, anySoftConstraintFails]
      | some p =>
        by_cases hok : (p state diagram csi).1
        · simp [constraintFails, hp, hP, hok, ih soft hh.2, anySoftConstraintFails]
        · by_cases hhd : c.ctype = some "hard"
          · exfalso
            have := hh.1
            simp [constraintFails, hp, hP, hok, hhd] at this
          · simp [constraintFails, hp, hP, hok, hhd, ih true hh.2, anySoftConstraintFails,
              Bool.or_comm, Bool.or_assoc, Bool.or_left_comm]
    · simp only [hp]
      simp [constraintFails, hp, ih soft hh.2, anySoftConstraintFails]

/-- Lookup in a map whose entries all carry the same value yields that
value for any present key. -/
theorem dictGet_const_of_mem (v k : String) (l : List (String × String))
    (hv : ∀ p ∈ l, p.2 = v) (hk : ∃ p ∈ l, p.1 = k) : dictGet l k = some v := by
  induction l with
  | nil => simp at hk
  | cons p rest ih =>
    by_cases hpk : p.1 == k
    · simp [dictGet, List.find?, hpk]
      exact hv p (List.mem_cons_self p rest)
    · obtain ⟨q, hq, hqk⟩ := hk
      rcases List.mem_cons.mp hq with hq1 | hq2
      · exfalso
        apply hpk
        have hk2 : p.1 = k := hq1 ▸ hqk
        simp [hk2]
      · have := ih (fun p hp => hv p (List.mem_cons_of_mem _ hp)) ⟨q, hq2, hqk⟩
        simpa [dictGet, List.find?, hpk] using this

/-- Every entry of the label-everything map carries the branch value. -/
theorem labelAllElements_snd (d : Diagram) (v : String) :
    ∀ p ∈ labelAllElements d v, p.2 = v := by
  intro p hp
  simp only [labelAllElements, List.mem_append, List.mem_filterMap] at hp
  rcases hp with ⟨n, _, hn⟩ | ⟨e, _, he⟩
  · by_cases h : n.id = ""
    · simp [h] at hn
    · simp [h] at hn
      exact hn ▸ rfl
  · by_cases h : e.id = ""
    · simp [h] at he
    · simp [h] at he
      exact he ▸ rfl

/-- The label assignment is the label-everything map at the predicted
diagram-global value. -/
theorem assign_inu_labels_eq_labelAll (diagram : Diagram) (cs : List Constraint)
    (state : SidState) (csi : CSI) :
    assign_inu_labels diagram cs state csi =
      labelAllElements diagram (globalLabelValue cs state diagram csi) := by
  unfold assign_inu_labels globalLabelValue
  by_cases he : cs.isEmpty
  · simp [he]
  · simp only [he, if_false]
    by_cases hh : anyHardConstraintFails cs state diagram csi
    · simp [phase1Global_fst, hh]
    · have hs2 := phase1Global_snd state diagram csi cs false (by simpa using hh)
      simp only [phase1Global_fst, hh, if_false, hs2, Bool.false_or]
      by_cases hsf : anySoftConstraintFails cs state diagram csi
      · simp [hsf]
      · simp [hsf]

/-- State component of `authorize_rewrite`: the input state, with the
label map inserted when it was absent. -/
theorem authorize_rewrite_snd (cs : List Constraint) (st : SidState) (d : Diagram)
    (csi : CSI) (r : RewriteRule) :
    (authorize_rewrite cs st d csi r).2 =
      if st.inu_labels.isNone then
        { st with inu_labels := some (assign_inu_labels d cs st csi) }
      else st := rfl

/-- The precondition loop refuses only together with a nonempty error
list. -/
theorem authorizePreconditions_false_errors (st : SidState) (r : RewriteRule) :
    ∀ ps ws, (authorizePreconditions st r ps ws).1 = false →
      (authorizePreconditions st r ps ws).2.1 ≠ [] := by
  intro ps
  induction ps with
  | nil => intro ws h; simp [authorizePreconditions] at h
  | cons pre rest ih =>
    intro ws h
    by_cases h1 : pre = "admissible"
    · simp only [authorizePreconditions, h1, if_true] at h ⊢
      by_cases h2 : (check_admissible st).1
      · simp only [h2, if_true] at h ⊢
        exact ih ws h
      · simp only [h2, if_false] at h ⊢
        simp
    · by_cases h3 : pre = "no_hard_conflict"
      · simp only [authorizePreconditions, h1, h3, if_false, if_true] at h ⊢
        exact ih ws h
      · simp only [authorizePreconditions, h1, h3, if_false] at h ⊢
        exact ih _ h

/-- A refused authorization always carries at least one error message. -/
theorem authorize_rewrite_false_errors (cs : List Constraint) (st : SidState) (d : Diagram)
    (csi : CSI) (r : RewriteRule) :
    (authorize_rewrite cs st d csi r).1.1 = false →
    (authorize_rewrite cs st d csi r).1.2.1 ≠ [] := by
  unfold authorize_rewrite
  simp only
  split
  · split
    next hcond => exact fun _ => hcond
    next hcond => exact fun h => authorizePreconditions_false_errors _ _ _ _ h
  · split
    next hcond => exact fun _ => hcond
    next hcond => exact fun h => authorizePreconditions_false_errors _ _ _ _ h

/-- Inversion for a mapped `Except` landing in `.ok`. -/
theorem except_map_eq_ok {ε α β : Type} (x : Except ε α) (f : α → β) (b : β) :
    x.map f = .ok b → ∃ a, x = .ok a ∧ f a = b := by
  cases x with
  | error e => intro h; simp [Except.map] at h
  | ok a => intro h; simp [Except.map] at h; exact ⟨a, rfl, h⟩

/-- Once a match has been applied, the application loop reports applied. -/
theorem applyMatchesLoop_applied_of_true (rep : RulePattern) (nm rid : String) :
    ∀ bl cur msgs, (applyMatchesLoop rep nm rid bl cur true msgs).applied = true := by
  intro bl
  induction bl with
  | nil => intro cur msgs; rfl
  | cons b rest ih =>
    intro cur msgs
    unfold applyMatchesLoop
    cases hM : apply_replacement cur rep b rid with
    | error e => rfl
    | ok newd => exact ih newd msgs

/-- An application loop that reports not-applied returns its input
diagram and a nonempty message list. -/
theorem applyMatchesLoop_false_no_op (rep : RulePattern) (nm rid : String) :
    ∀ bl cur msgs,
      (applyMatchesLoop rep nm rid bl cur false msgs).applied = false →
      (applyMatchesLoop rep nm rid bl cur false msgs).diagram = cur ∧
      (applyMatchesLoop rep nm rid bl cur false msgs).messages ≠ [] := by
  intro bl
  induction bl with
  | nil =>
    intro cur msgs _
    exact ⟨by simp [applyMatchesLoop], by simp [applyMatchesLoop]⟩
  | cons b rest ih =>
    intro cur msgs h
    unfold applyMatchesLoop at h ⊢
    cases hM : apply_replacement cur rep b rid with
    | error e =>
      simp only [hM] at h ⊢
      exact ⟨by simp, by simp⟩
    | ok newd =>
      simp only [hM] at h ⊢
      exact absurd h (by simp [applyMatchesLoop_applied_of_true])

/-- The structured-path tail behaves as a no-op whenever it reports
not-applied. -/
theorem structuredRuleApply_false_no_op (messages : List String) (d : Diagram)
    (r : RewriteRule) (rep : RulePattern) (bl : List Bindings)
    (h : (structuredRuleApply messages d r rep bl).applied = false) :
    (structuredRuleApply messages d r rep bl).diagram = d ∧
    (structuredRuleApply messages d r rep bl).messages ≠ [] := by
  unfold structuredRuleApply at h ⊢
  by_cases hbl : bl.isEmpty
  · simp only [hbl, if_true]
    exact ⟨by simp, by simp⟩
  · simp only [hbl, if_false] at h ⊢
    simp only [Bool.false_eq_true, if_false] at h ⊢
    exact applyMatchesLoop_false_no_op _ _ _ _ _ _ h

/-- Every not-applied result of the pattern paths keeps the input diagram
and carries a message. -/
theorem rewriteStubPatterns_reject (messages : List String) (d : Diagram)
    (r : RewriteRule) (a : Bool) (res : RewriteResult)
    (h : rewriteStubPatterns messages d r a = .ok res)
    (hap : res.applied = false) :
    res.diagram = d ∧ res.messages ≠ [] := by
  unfold rewriteStubPatterns at h
  split at h
  · split at h
    next exc => cases h; exact ⟨by simp, by simp⟩
    next pe =>
      split at h
      next exc => cases h; exact ⟨by simp, by simp⟩
      next re =>
        split at h
        next => cases h; exact ⟨by simp, by simp⟩
        next m =>
          split at h
          next exc => cases h
          next br =>
            dsimp only at h
            split at h
            next => cases h; exact ⟨by simp, by simp⟩
            next => cases h; simp at hap
  · split at h
    next exc => cases h; exact ⟨by simp, by simp⟩
    next pat =>
      split at h
      next exc => cases h; exact ⟨by simp, by simp⟩
      next rep =>
        cases h
        exact structuredRuleApply_false_no_op _ _ _ _ _ hap

/-- C1: whenever `apply_rewrite_stub` rejects a rewrite — unauthorized,
malformed or unmatched pattern (either form), or a would-be cycle — the
returned result is a no-op: its diagram is exactly the input diagram and
it carries at least one message. -/
theorem rewrite_rejection_unchanged (constraints : List Constraint) (state : SidState)
    (diagram : Diagram) (csi : CSI) (rewrite_rule : RewriteRule) (apply_all : Bool)
    (res : RewriteResult) (st2 : SidState)
    (h : apply_rewrite_stub constraints state diagram csi rewrite_rule apply_all =
      .ok (res, st2))
    (hap : res.applied = false) :
    res.diagram = diagram ∧ res.messages ≠ [] := by
  unfold apply_rewrite_stub at h
  obtain ⟨r0, hx, hb⟩ := except_map_eq_ok _ _ _ h
  have hres : r0 = res := congrArg Prod.fst hb
  subst hres
  split at hx <;> split at hx
  case isTrue.isTrue hauth =>
    have herr := authorize_rewrite_false_errors constraints _ diagram csi rewrite_rule hauth
    cases hx
    refine ⟨by simp, ?_⟩
    intro hc
    simp only [List.append_eq_nil, List.map_eq_nil_iff] at hc
    exact herr hc.2
  case isTrue.isFalse hauth =>
    exact rewriteStubPatterns_reject _ _ _ _ _ hx hap
  case isFalse.isTrue hauth =>
    have herr := authorize_rewrite_false_errors constraints _ diagram csi rewrite_rule hauth
    cases hx
    refine ⟨by simp, ?_⟩
    intro hc
    simp only [List.append_eq_nil, List.map_eq_nil_iff] at hc
    exact herr hc.2
  case isFalse.isFalse hauth =>
    exact rewriteStubPatterns_reject _ _ _ _ _ hx hap

/-- C1 witness: a concrete rejected rewrite (empty rule pattern) returns
the unchanged diagram with an error message. -/
theorem rewrite_rejection_unchanged_witness :
    apply_rewrite_stub [] wRejectState wRejectDiagram { id := "c" } { id := "r" } false =
      .ok (wRejectRes, wRejectStateAfter) ∧
    wRejectRes.applied = false ∧
    wRejectRes.diagram = wRejectDiagram ∧ wRejectRes.messages ≠ [] :=
  ⟨rfl, rfl,
   (rewrite_rejection_unchanged [] wRejectState wRejectDiagram { id := "c" } { id := "r" }
     false wRejectRes wRejectStateAfter rfl rfl).1,
   (rewrite_rejection_unchanged [] wRejectState wRejectDiagram { id := "c" } { id := "r" }
     false wRejectRes wRejectStateAfter rfl rfl).2⟩

/-- C2: label assignment is diagram-global — every node id and every edge
id of the diagram is mapped (totally) to the one value predicted by the
constraint set: I with no constraints, else N when some hard constraint's
predicate fails on the whole diagram, else U when some soft constraint's
predicate fails, else I. -/
theorem assign_inu_labels_diagram_global (diagram : Diagram) (constraints : List Constraint)
    (state : SidState) (csi : CSI) :
    (∀ n ∈ diagram.nodes, n.id ≠ "" →
      dictGet (assign_inu_labels diagram constraints state csi) n.id =
        some (globalLabelValue constraints state diagram csi)) ∧
    (∀ e ∈ diagram.edges, e.id ≠ "" →
      dictGet (assign_inu_labels diagram constraints state csi) e.id =
        some (globalLabelValue constraints state diagram csi)) := by
  rw [assign_inu_labels_eq_labelAll]
  constructor
  · intro n hn hid
    apply dictGet_const_of_mem _ _ _ (labelAllElements_snd diagram _)
    refine ⟨(n.id, globalLabelValue constraints state diagram csi), ?_, rfl⟩
    simp only [labelAllElements, List.mem_append, List.mem_filterMap]
    exact Or.inl ⟨n, hn, by simp [hid]⟩
  · intro e he hid
    apply dictGet_const_of_mem _ _ _ (labelAllElements_snd diagram _)
    refine ⟨(e.id, globalLabelValue constraints state diagram csi), ?_, rfl⟩
    simp only [labelAllElements, List.mem_append, List.mem_filterMap]
    exact Or.inr ⟨e, he, by simp [hid]⟩

/-- C2 witness: on a one-node diagram with no constraints the node is
labeled with the predicted value, which is I. -/
theorem assign_inu_labels_diagram_global_witness :
    wNode ∈ wLabelDiagram.nodes ∧ wNode.id ≠ "" ∧
    dictGet (assign_inu_labels wLabelDiagram [] { id := "s" } { id := "c" }) wNode.id =
      some (globalLabelValue [] { id := "s" } wLabelDiagram { id := "c" }) ∧
    globalLabelValue [] { id := "s" } wLabelDiagram { id := "c" } = "I" :=
  ⟨List.mem_cons_self wNode [], by decide,
   (assign_inu_labels_diagram_global wLabelDiagram [] { id := "s" } { id := "c" }).1
     wNode (List.mem_cons_self wNode []) (by decide), rfl⟩

/-- C3: the arity table assigns P/O/T exactly one argument, C exactly
two, S+/S- at least one with no upper bound; validation rejects an
argument list below the minimum citing that minimum, rejects one above a
declared maximum citing that maximum, accepts exactly at the bounds; and
the bare expression `C` raises the arity error citing the minimum of 2. -/
theorem operator_arity_enforced :
    (OPERATOR_ARITY "P" = some (1, some 1) ∧ OPERATOR_ARITY "O" = some (1, some 1) ∧
     OPERATOR_ARITY "T" = some (1, some 1) ∧ OPERATOR_ARITY "C" = some (2, some 2) ∧
     OPERATOR_ARITY "S+" = some (1, none) ∧ OPERATOR_ARITY "S-" = some (1, none)) ∧
    (∀ op minArgs maxArgs args pos, OPERATOR_ARITY op = some (minArgs, maxArgs) →
      (args.length < minArgs →
        validate_arity op args pos = .error (.arityMin op minArgs args.length pos)) ∧
      (minArgs ≤ args.length → ∀ m, maxArgs = some m → m < args.length →
        validate_arity op args pos = .error (.arityMax op m args.length pos)) ∧
      (minArgs ≤ args.length → (∀ m, maxArgs = some m → args.length ≤ m) →
        validate_arity op args pos = .ok ())) ∧
    parse_expression "C" = .error (.arityMin "C" 2 0 0) ∧
    (parse_expression "P(x)").isOk = true ∧ (parse_expression "O(x)").isOk = true ∧
    (parse_expression "T(x)").isOk = true ∧ (parse_expression "C(x,y)").isOk = true ∧
    (parse_expression "S+(x)").isOk = true ∧ (parse_expression "S-(x)").isOk = true ∧
    (parse_expression "S-(a,b,c,d,e,f,g,h)").isOk = true ∧
    parse_expression "P(x,y)" = .error (.arityMax "P" 1 2 0) ∧
    parse_expression "C(x)" = .error (.arityMin "C" 2 1 0) ∧
    parse_expression "C(x,y,z)" = .error (.arityMax "C" 2 3 0) := by
  refine ⟨⟨rfl, rfl, rfl, rfl, rfl, rfl⟩, ?_, rfl, rfl, rfl, rfl, rfl, rfl, rfl, rfl, rfl, rfl, rfl⟩
  intro op minArgs maxArgs args pos h
  refine ⟨?_, ?_, ?_⟩
  · intro hlt
    simp only [validate_arity, h]
    simp [hlt]
  · intro hge m hm hgt
    subst hm
    simp only [validate_arity, h]
    simp [Nat.not_lt.mpr hge, hgt]
  · intro hge hmax
    simp only [validate_arity, h]
    simp only [Nat.not_lt.mpr hge, if_false]
    match maxArgs, hmax with
    | none, _ => rfl
    | some m, hmax =>
      simp [Nat.not_lt.mpr (hmax m rfl)]

/-- C3 witness: the bounds of operator C concretely — zero arguments
rejected citing minimum 2, three rejected citing maximum 2, two
accepted. -/
theorem operator_arity_enforced_witness :
    OPERATOR_ARITY "C" = some (2, some 2) ∧
    validate_arity "C" [] 0 = .error (.arityMin "C" 2 0 0) ∧
    validate_arity "C" [Expr.atom "x", Expr.atom "y", Expr.atom "z"] 0 =
      .error (.arityMax "C" 2 3 0) ∧
    validate_arity "C" [Expr.atom "x", Expr.atom "y"] 0 = .ok () :=
  ⟨operator_arity_enforced.1.2.2.2.1,
   (operator_arity_enforced.2.1 "C" 2 (some 2) [] 0 rfl).1 (by decide),
   (operator_arity_enforced.2.1 "C" 2 (some 2) [Expr.atom "x", Expr.atom "y", Expr.atom "z"] 0
     rfl).2.1 (by decide) 2 rfl (by decide),
   (operator_arity_enforced.2.1 "C" 2 (some 2) [Expr.atom "x", Expr.atom "y"] 0 rfl).2.2
     (by decide) (fun m hm => by cases hm; decide)⟩

/-- C4: for any tolerance at least 0, fewer than two loop-history
snapshots is reported not converged, and two or more snapshots whose last
two show zero changed labels are reported converged (for any such
tolerance, including 0). -/
theorem loop_convergence_zero_changes (state : SidState) (tolerance : Rat)
    (_htol : 0 ≤ tolerance) :
    (state.loop_history.length < 2 →
      (check_loop_convergence state tolerance).1 = false) ∧
    (∀ curr prev rest, state.loop_history.reverse = curr :: prev :: rest →
      changedLabelCount prev.inu_labels curr.inu_labels = 0 →
      (check_loop_convergence state tolerance).1 = true) := by
  constructor
  · intro h
    simp [check_loop_convergence, h]
  · intro curr prev rest hr hc
    have hlen : ¬ (state.loop_history.length < 2) := by
      have h2 := congrArg List.length hr
      simp at h2
      omega
    simp [check_loop_convergence, hlen, hr, hc]

/-- C4 witness: two identical snapshots converge at tolerance 0; an empty
history does not. -/
theorem loop_convergence_zero_changes_witness :
    (0 : Rat) ≤ 0 ∧
    (check_loop_convergence convHistState 0).1 = true ∧
    (check_loop_convergence { id := "s" : SidState } 0).1 = false :=
  ⟨le_refl 0,
   (loop_convergence_zero_changes convHistState 0 (le_refl 0)).2
     { inu_labels := [("a", "I")] } { inu_labels := [("a", "I")] } [] rfl rfl,
   (loop_convergence_zero_changes { id := "s" } 0 (le_refl 0)).1 (by decide)⟩

/-- C5 counterexample: on a package whose diagram has no nodes (so the
collapse-ratio denominator is zero) the metric is the numeric default 0,
not undefined — refuting that every optional metric with a zero
denominator is left undefined. The admissible ratio likewise defaults
to 0 on the empty label map. -/
theorem stability_metrics_zero_default_counterexample :
    (pyDictById Diagram.id cexMetricsPkg.diagrams "d").map Diagram.nodes = some [] ∧
    (compute_stability_metrics cexMetricsPkg "s" "d").map StabilityMetrics.collapse_ratio =
      some (some 0) ∧
    (compute_stability_metrics cexMetricsPkg "s" "d").map StabilityMetrics.gradient_coherence =
      some (some 0) ∧
    (compute_stability_metrics cexMetricsPkg "s" "d").map StabilityMetrics.admissible_ratio =
      some (some 0) := ⟨rfl, rfl, rfl, rfl⟩

/-- C5 as amended: of the optional metrics only transport fidelity (no
Transport nodes) and loop gain (fewer than two snapshots) are left
undefined; the admissible, collapse and coupling ratios fall back to the
numeric default 0 when their denominator is zero. -/
theorem stability_metrics_defaults (pkg : Package) (sid did : String)
    (state : SidState) (diagram : Diagram)
    (hs : pyDictById SidState.id pkg.states sid = some state)
    (hd : pyDictById Diagram.id pkg.diagrams did = some diagram) :
    ∃ m, compute_stability_metrics pkg sid did = some m ∧
      (m.transport_fidelity = none ↔
        (diagram.nodes.filter (fun n => n.op == "T")).isEmpty = true) ∧
      (m.loop_gain = none ↔ state.loop_history.length < 2) ∧
      (diagram.nodes.isEmpty = true →
        m.collapse_ratio = some 0 ∧ m.gradient_coherence = some 0) ∧
      ((state.inu_labels.getD []).isEmpty = true → m.admissible_ratio = some 0) := by
  simp only [compute_stability_metrics, hs, hd]
  refine ⟨_, rfl, ?_, ?_, ?_, ?_⟩
  · by_cases hT : (diagram.nodes.filter (fun n => n.op == "T")).isEmpty
    · simp [hT]
    · simp [hT]
  · by_cases hl : state.loop_history.length ≥ 2
    · have hrev : ∃ a b rest, state.loop_history.reverse = a :: b :: rest := by
        match hx : state.loop_history.reverse with
        | [] =>
          have h0 : state.loop_history.length = 0 := by
            rw [← List.length_reverse, hx]
            rfl
          omega
        | [a] =>
          have h1 : state.loop_history.length = 1 := by
            rw [← List.length_reverse, hx]
            rfl
          omega
        | a :: b :: rest => exact ⟨a, b, rest, rfl⟩
      obtain ⟨a, b, rest, hr⟩ := hrev
      simp only [hl, if_true, hr]
      constructor
      · intro h
        split at h <;> simp_all
      · intro h
        exact absurd h (by omega)
    · simp only [hl, if_false]
      simp
      omega
  · intro h
    simp [h]
  · intro h
    simp only [List.isEmpty_iff] at h
    simp [h]

/-- C5 witness: the amended statement instantiated on the concrete
zero-denominator package. -/
theorem stability_metrics_defaults_witness :
    ∃ m, compute_stability_metrics cexMetricsPkg "s" "d" = some m ∧
      (m.transport_fidelity = none ↔
        (({ id := "d" : Diagram }).nodes.filter (fun n => n.op == "T")).isEmpty = true) ∧
      (m.loop_gain = none ↔ ({ id := "s" : SidState }).loop_history.length < 2) ∧
      (({ id := "d" : Diagram }).nodes.isEmpty = true →
        m.collapse_ratio = some 0 ∧ m.gradient_coherence = some 0) ∧
      ((({ id := "s" : SidState }).inu_labels.getD []).isEmpty = true →
        m.admissible_ratio = some 0) :=
  stability_metrics_defaults cexMetricsPkg "s" "d" { id := "s" } { id := "d" } rfl rfl

/-- C6 counterexample: a rule whose pattern and replacement are
structurally equal (their parsed expressions coincide, differing only in
whitespace) is an identity rewrite in the spec's sense, yet condition 3
reports false — the source compares the raw strings, not structures. -/
theorem identity_rewrites_structural_counterexample :
    specIdentityRewrite cexIdentityRule ∧
    (check_only_identity_rewrites [cexIdentityRule] { id := "d" }).1 = false :=
  ⟨Or.inl ⟨rfl, rfl, rfl⟩, rfl⟩

/-- C6 as amended: condition 3 holds exactly when every rule in the given
list — regardless of authorization — has its pattern string (falling back
to the expression form, Python-or semantics) literally equal to its
replacement string. -/
theorem check_only_identity_is_string_equality (rules : List RewriteRule) (d : Diagram) :
    (check_only_identity_rewrites rules d).1 = true ↔
      ∀ r ∈ rules, pyOr r.pattern r.pattern_expr = pyOr r.replacement r.replacement_expr := by
  induction rules with
  | nil => simp [check_only_identity_rewrites, check_only_identity_rewrites.go]
  | cons r rest ih =>
    simp only [check_only_identity_rewrites, check_only_identity_rewrites.go] at *
    by_cases h : pyOr r.pattern r.pattern_expr = pyOr r.replacement r.replacement_expr
    · simp [h, ih]
    · simp [h]

/-- C6 witness: the amended statement instantiated on the empty rule
list. -/
theorem check_only_identity_is_string_equality_witness :
    (check_only_identity_rewrites [] { id := "d" }).1 = true :=
  (check_only_identity_is_string_equality [] { id := "d" }).mpr
    (fun r hr => absurd hr (List.not_mem_nil r))

/-- C7: compiling `C(P(Freedom),P(Justice))` yields exactly three nodes
(two P, one C) and exactly two edges, both labeled "arg" and both
directed into the C node. -/
theorem scenario_b_compile :
    (parse_expression "C(P(Freedom),P(Justice))").toOption.map
        (fun e => expr_to_diagram e "d_expr" none) = some (.ok scenarioB_diagram) ∧
    scenarioB_diagram.nodes.length = 3 ∧
    (scenarioB_diagram.nodes.filter (fun n => n.op == "P")).length = 2 ∧
    (scenarioB_diagram.nodes.filter (fun n => n.op == "C")).length = 1 ∧
    scenarioB_diagram.edges.length = 2 ∧
    scenarioB_diagram.edges.all (fun e =>
      e.label == "arg" &&
      ((pyDictLast Node.id scenarioB_diagram.nodes e.toId).map Node.op == some "C")) = true :=
  ⟨rfl, rfl, rfl, rfl, rfl, rfl⟩

/-- C8: the tokenizer's operator-before-identifier alternation splits an
identifier starting with an operator letter — "Chaos" becomes operator C
plus identifier "haos" — so `P(Chaos)` fails with the inner operator's
arity error instead of producing a P node with dof-ref "Chaos". -/
theorem tokenizer_splits_op_letter :
    tokenize "Chaos" =
      .ok [{ kind := "op", value := "C", pos := 0, line := 1, column := 1 },
           { kind := "ident", value := "haos", pos := 1, line := 1, column := 2 }] ∧
    parse_expression "P(Chaos)" = .error (.arityMin "C" 2 0 2) := ⟨rfl, rfl⟩

/-- C9: when the caller state lacks a label map, `authorize_rewrite` (and
`apply_rewrite_stub`, which performs the same insertion) returns the
caller state with exactly the computed label map inserted and every other
field unchanged; a state that already has a label map is returned
unrelabeled. -/
theorem inu_labels_initialized_in_place (constraints : List Constraint) (state : SidState)
    (diagram : Diagram) (csi : CSI) (rewrite_rule : RewriteRule) :
    (state.inu_labels = none →
      (authorize_rewrite constraints state diagram csi rewrite_rule).2 =
        { state with inu_labels := some (assign_inu_labels diagram constraints state csi) }) ∧
    (state.inu_labels.isSome = true →
      (authorize_rewrite constraints state diagram csi rewrite_rule).2 = state) ∧
    (∀ apply_all res st2,
      apply_rewrite_stub constraints state diagram csi rewrite_rule apply_all =
        .ok (res, st2) →
      (state.inu_labels = none →
        st2 = { state with
                  inu_labels := some (assign_inu_labels diagram constraints state csi) }) ∧
      (state.inu_labels.isSome = true → st2 = state)) := by
  refine ⟨?_, ?_, ?_⟩
  · intro hn
    rw [authorize_rewrite_snd]
    simp [hn]
  · intro hs
    cases h2 : state.inu_labels with
    | none => rw [h2] at hs; simp at hs
    | some l =>
      rw [authorize_rewrite_snd]
      simp [h2]
  · intro a res st2 h
    unfold apply_rewrite_stub at h
    obtain ⟨r0, hx, hb⟩ := except_map_eq_ok _ _ _ h
    have hst : st2 =
        (authorize_rewrite constraints
          (if state.inu_labels.isNone then
            { state with inu_labels := some (assign_inu_labels diagram constraints state csi) }
          else state) diagram csi rewrite_rule).2 :=
      (congrArg Prod.snd hb).symm
    rw [authorize_rewrite_snd] at hst
    constructor
    · intro hn
      rw [hst]
      simp [hn]
    · intro hs
      cases h2 : state.inu_labels with
      | none => rw [h2] at hs; simp at hs
      | some l =>
        rw [hst]
        simp [h2]

/-- C9 witness: a label-free state gets exactly the computed label map
inserted (the empty diagram's is empty) both by `authorize_rewrite` and
through `apply_rewrite_stub`; a labeled state is returned unchanged. -/
theorem inu_labels_initialized_in_place_witness :
    ((authorize_rewrite [] wRejectState wRejectDiagram { id := "c" } { id := "r" }).2 =
      { wRejectState with
          inu_labels := some (assign_inu_labels wRejectDiagram [] wRejectState { id := "c" }) }) ∧
    ((authorize_rewrite [] wRejectStateAfter wRejectDiagram { id := "c" } { id := "r" }).2 =
      wRejectStateAfter) ∧
    (wRejectStateAfter =
      { wRejectState with
          inu_labels := some (assign_inu_labels wRejectDiagram [] wRejectState { id := "c" }) }) :=
  ⟨(inu_labels_initialized_in_place [] wRejectState wRejectDiagram { id := "c" }
      { id := "r" }).1 rfl,
   (inu_labels_initialized_in_place [] wRejectStateAfter wRejectDiagram { id := "c" }
      { id := "r" }).2.1 rfl,
   ((inu_labels_initialized_in_place [] wRejectState wRejectDiagram { id := "c" }
      { id := "r" }).2.2 false wRejectRes wRejectStateAfter rfl).1 rfl⟩

/-- C10: compiling a bare identifier produces exactly one node — op P,
dof_refs holding that identifier, metadata marking it atom-only — and no
edges. -/
theorem expr_to_diagram_bare_atom (name : String) :
    expr_to_diagram (Expr.atom name) "d_expr" none =
      .ok { id := "d_expr",
            nodes := [{ id := "n1", op := "P", dof_refs := [name], meta_atom_only := true }],
            edges := [] } := by
  simp only [expr_to_diagram, buildExprD, DiagramBuild.nextId]
  rfl

/-- C10 witness: the bare-atom compilation at the concrete name X. -/
theorem expr_to_diagram_bare_atom_witness :
    expr_to_diagram (Expr.atom "X") "d_expr" none =
      .ok { id := "d_expr",
            nodes := [{ id := "n1", op := "P", dof_refs := ["X"], meta_atom_only := true }],
            edges := [] } :=
  expr_to_diagram_bare_atom "X"
